import Mathlib

/-!
Verification development for the code-generation evaluation harness
(`testing_utils.py`, `eval.py`, `utils.py`).

The harness executes untrusted candidate programs; we model a candidate's
dynamic behaviour (module load, entry-point calls, script runs) as oracles,
and translate the harness's own control flow — load short-circuit, the
per-case loop with alarm arming/disarming, exception capture, stdout
redirection, verdict/error recording, and the aggregation in
`evaluate_single` / `evaluate` — directly from the source.
-/

/-- A JSON-like Python value, as appears in the parsed `input_output`
payloads and as candidate-function arguments and return values. -/
inductive PyVal where
  | none : PyVal
  | bool : Bool → PyVal
  | int : Int → PyVal
  | str : String → PyVal
  | list : List PyVal → PyVal

mutual

/-- Python `repr()` on `PyVal` (elements of a list are rendered with
`repr`, strings quoted). -/
def pyRepr : PyVal → String
  | PyVal.none => "None"
  | PyVal.bool true => "True"
  | PyVal.bool false => "False"
  | PyVal.int n => toString n
  | PyVal.str s => "'" ++ s ++ "'"
  | PyVal.list l => "[" ++ pyReprList l ++ "]"

/-- Comma-separated `repr`s of the elements of a Python list. -/
def pyReprList : List PyVal → String
  | [] => ""
  | [x] => pyRepr x
  | x :: xs => pyRepr x ++ ", " ++ pyReprList xs

end

/-- Python `str()` on `PyVal`: the string itself for a string, `repr`-style
rendering otherwise.  Models the `str(...)` coercions in `run_test`. -/
def pyStr : PyVal → String
  | PyVal.str s => s
  | v => pyRepr v

mutual

/-- Python `==` on JSON-like values: deep structural equality.  Models
`got == outs[i]` in `run_test`. -/
def pyEq : PyVal → PyVal → Bool
  | PyVal.none, PyVal.none => true
  | PyVal.bool a, PyVal.bool b => a == b
  | PyVal.int a, PyVal.int b => a == b
  | PyVal.str a, PyVal.str b => a == b
  | PyVal.list a, PyVal.list b => pyEqList a b
  | _, _ => false

/-- Pointwise Python `==` on lists. -/
def pyEqList : List PyVal → List PyVal → Bool
  | [], [] => true
  | x :: xs, y :: ys => pyEq x y && pyEqList xs ys
  | _, _ => false

end

mutual

/-- `pyEq` decides deep structural equality. -/
theorem pyEq_iff : ∀ a b : PyVal, pyEq a b = true ↔ a = b
  | PyVal.none, b => by cases b <;> simp [pyEq]
  | PyVal.bool x, b => by cases b <;> simp [pyEq]
  | PyVal.int x, b => by cases b <;> simp [pyEq]
  | PyVal.str x, b => by cases b <;> simp [pyEq]
  | PyVal.list l, b => by
      cases b <;> simp [pyEq]
      exact pyEqList_iff l _

/-- `pyEqList` decides list equality. -/
theorem pyEqList_iff : ∀ xs ys : List PyVal, pyEqList xs ys = true ↔ xs = ys
  | [], ys => by cases ys <;> simp [pyEqList]
  | x :: xs, ys => by
      cases ys with
      | nil => simp [pyEqList]
      | cons y ys =>
          simp [pyEqList, Bool.and_eq_true, pyEq_iff x y, pyEqList_iff xs ys]

end

instance : DecidableEq PyVal := fun a b =>
  decidable_of_iff (pyEq a b = true) (pyEq_iff a b)

/-- An abstract handle for a process-level output stream (`sys.stdout`);
distinct `id`s model distinct stream objects. -/
structure OutStream where
  id : Nat
deriving DecidableEq, Repr

/-- A raised Python exception: its type name (`type(e).__name__`), its
message (`str(e)`) and its formatted traceback (`traceback.format_exc()`). -/
structure PyExc where
  name : String
  msg : String
  tb : String
deriving DecidableEq, Repr

/-- Outcome of running a piece of Python code: a value, or a raised
exception. -/
inductive ExcOutcome (α : Type) where
  | ok : α → ExcOutcome α
  | exc : PyExc → ExcOutcome α
deriving DecidableEq, Repr

/-- One entry of the error list produced by `run_test`: the dict
`{"name": ..., "value": ...}`. -/
structure ErrEntry where
  name : String
  value : String
deriving DecidableEq, Repr

/-- One entry of the verdict list produced by `run_test`: `res.append(ok)`
appends a boolean (`b`), and the load-failure path returns `[-2]`
(`sentinel`). -/
inductive Verdict where
  | b : Bool → Verdict
  | sentinel : Verdict
deriving DecidableEq, Repr

/-- The test specification extracted at the top of `run_test`:
`ins, outs = io.get("inputs", []), io.get("outputs", [])` and
`fn_name = io.get("fn_name", None)` after `json.loads`. -/
structure TestSpec where
  inputs : List PyVal
  outputs : List PyVal
  fn_name : Option String
deriving DecidableEq

/-- Oracle model of one candidate program (the `test` code string).
`parses` is the outcome of `ast.parse` (`check_syntax_valid`); `load` the
outcome of `create_module_from_string` (executing the source once into a
fresh module namespace); `callFn name i args` the outcome of
`getattr(mod, name)` followed by the call with argument list `args` while
evaluating case `i` (an `AttributeError` from `getattr` is folded into the
exception outcome, as both sit in the same `try`); `script k` the text the
source prints (or the exception it raises) on its `k`-th script-mode
re-execution in the same namespace. -/
structure Candidate where
  parses : Bool
  load : ExcOutcome Unit
  callFn : String → Nat → List PyVal → ExcOutcome PyVal
  script : Nat → ExcOutcome String

/-- `fn(*inp) if isinstance(inp, list) else fn(inp)`: the positional
argument list the candidate function is invoked with. -/
def spreadArgs : PyVal → List PyVal
  | PyVal.list l => l
  | v => [v]

/-- `_run_script_and_capture_output`: save `sys.stdout`, point it at a
fresh buffer, execute the candidate source (the `k`-th script run), and
restore the saved stream in a `finally`, on the return path and on the
exception path alike.  Returns the outcome together with the value of
`sys.stdout` after the call. -/
def _run_script_and_capture_output (cand : Candidate) (k : Nat) (stdout : OutStream) :
    ExcOutcome String × OutStream :=
  let old_stdout := stdout
  -- sys.stdout = StringIO(): a fresh buffer object
  let _buffer : OutStream := ⟨old_stdout.id + 1⟩
  match cand.script k with
  | ExcOutcome.ok output => (ExcOutcome.ok output, old_stdout)
  | ExcOutcome.exc e => (ExcOutcome.exc e, old_stdout)

/-- The module-level `TIMEOUT` constant. -/
def TIMEOUT : Nat := 10

/-- Module-import side effect: on platforms without `SIGALRM`
(`SIGNAL_AVAILABLE = False`) a degraded-mode warning is printed. -/
def module_init_warnings (signal_available : Bool) : List String :=
  if signal_available then [] else ["Warning: Timeout not available on Windows"]

/-- Harness environment: the `SIGNAL_AVAILABLE` flag, the value of the
`TIMEOUT` global at call time (default `TIMEOUT = 10`), and the stream
installed as `sys.stdout` on entry. -/
structure Env where
  signal_available : Bool
  timeout : Nat
  stdout : OutStream

/-- What one iteration of the `for i, inp in enumerate(ins)` loop records:
the appended verdict and error entry, the sequence of arguments passed to
`signal.alarm` during the iteration, and the stream `sys.stdout` holds
when the iteration finishes. -/
structure CaseOut where
  verdict : Verdict
  err : Option ErrEntry
  alarms : List Nat
  stdout : OutStream
deriving DecidableEq, Repr

/-- Python `str.strip()` with no arguments: remove leading and trailing
whitespace.  Models `output.strip()` and `str(outs[i]).strip()` in
`run_test`. -/
def pyStrip (s : String) : String :=
  String.mk (((s.data.dropWhile Char.isWhitespace).reverse.dropWhile
    Char.isWhitespace).reverse)

/-- The model of `traceback.format_exc()` for the `IndexError` raised by
`outs[i]` when the outputs list is shorter than the inputs list. -/
def index_error_tb : String := "IndexError: list index out of range"

/-- One iteration of the per-case loop of `run_test`.  Inside the `try`:
arm the alarm (`signal.alarm(TIMEOUT)`) when signals are available; in
function mode resolve and call the entry point on the spread arguments and
compare with `outs[i]` under Python `==`; in script mode re-run the source
with stdout captured and compare stripped captured text with
`str(outs[i]).strip()`; then disarm (`signal.alarm(0)`).  Any exception —
from the candidate, or the `IndexError` from `outs[i]` — is caught by the
`except`, which disarms the alarm and records `False` with the exception's
type name and formatted traceback. -/
def runCase (env : Env) (cand : Candidate) (spec : TestSpec) (i : Nat) (inp : PyVal)
    (stdout : OutStream) : CaseOut :=
  let arm : List Nat := if env.signal_available then [env.timeout] else []
  let disarm : List Nat := if env.signal_available then [0] else []
  match spec.fn_name with
  | some fn_name =>
      match cand.callFn fn_name i (spreadArgs inp) with
      | ExcOutcome.exc e =>
          ⟨Verdict.b false, some ⟨e.name, e.tb⟩, arm ++ disarm, stdout⟩
      | ExcOutcome.ok got =>
          match spec.outputs.get? i with
          | none =>
              -- outs[i] raises IndexError, caught by the except branch
              ⟨Verdict.b false, some ⟨"IndexError", index_error_tb⟩, arm ++ disarm, stdout⟩
          | some expected =>
              let ok := pyEq got expected
              ⟨Verdict.b ok, if ok then none else some ⟨"WrongOutput", pyStr got⟩,
               arm ++ disarm, stdout⟩
  | none =>
      match _run_script_and_capture_output cand i stdout with
      | (ExcOutcome.exc e, stdout1) =>
          ⟨Verdict.b false, some ⟨e.name, e.tb⟩, arm ++ disarm, stdout1⟩
      | (ExcOutcome.ok output, stdout1) =>
          match spec.outputs.get? i with
          | none =>
              -- str(outs[i]) raises IndexError after the script already ran
              ⟨Verdict.b false, some ⟨"IndexError", index_error_tb⟩, arm ++ disarm, stdout1⟩
          | some expected =>
              let ok := pyStrip output == pyStrip (pyStr expected)
              ⟨Verdict.b ok, if ok then none else some ⟨"WrongStdout", output⟩,
               arm ++ disarm, stdout1⟩

/-- The lists accumulated by `run_test`: `res`, `err`, the trace of
`signal.alarm` calls, and the final `sys.stdout`. -/
structure RunLists where
  res : List Verdict
  err : List (Option ErrEntry)
  alarms : List Nat
  stdout : OutStream
deriving DecidableEq, Repr

/-- The per-case loop `for i, inp in enumerate(ins)`, starting at index
`i`. -/
def runCases (env : Env) (cand : Candidate) (spec : TestSpec) :
    Nat → List PyVal → OutStream → RunLists
  | _, [], stdout => ⟨[], [], [], stdout⟩
  | i, inp :: rest, stdout =>
      let c := runCase env cand spec i inp stdout
      let r := runCases env cand spec (i + 1) rest c.stdout
      ⟨c.verdict :: r.res, c.err :: r.err, c.alarms ++ r.alarms, r.stdout⟩

/-- `run_test(sample, test)`.  The `io` argument models
`json.loads(sample["input_output"])` together with the `.get` extraction
(its `exc` case a parse failure, which propagates to the caller since it
sits before the `try`).  A failing `create_module_from_string` returns the
sentinel pair `([-2], [{"name": type(e).__name__, "value": str(e)}])`;
otherwise the per-case loop runs and the complete `(res, err)` pair is
returned. -/
def run_test (env : Env) (cand : Candidate) (io : ExcOutcome TestSpec) :
    ExcOutcome RunLists :=
  match io with
  | ExcOutcome.exc e => ExcOutcome.exc e
  | ExcOutcome.ok spec =>
      match cand.load with
      | ExcOutcome.exc e =>
          ExcOutcome.ok ⟨[Verdict.sentinel], [some ⟨e.name, e.msg⟩], [], env.stdout⟩
      | ExcOutcome.ok _ =>
          ExcOutcome.ok (runCases env cand spec 0 spec.inputs env.stdout)

/-- One generation record consumed by `evaluate_single`: its `task_id`,
the candidate code's behaviour (`cand`, modelling the string selected from
`deal_response` / `solutions`), and the parsed `input_output` payload. -/
structure Gen where
  task_id : String
  cand : Candidate
  io : ExcOutcome TestSpec

/-- The dict returned by `evaluate_single`. -/
structure EvalResult where
  task_id : String
  passed : Bool
  syntax_valid : Bool
  error : List (Option ErrEntry)
  error_name : Option String
  num_tests : Nat
  num_passed : Nat
deriving DecidableEq, Repr

/-- `for e in err: if e: error_name = e.get("name", "Unknown"); break` —
the name of the first non-null error entry. -/
def first_error_name : List (Option ErrEntry) → Option String
  | [] => none
  | some e :: _ => some e.name
  | none :: rest => first_error_name rest

/-- `evaluate_single(g)`: compute `syntax_valid` by static parsing, run
the tests, and derive `passed = all(r is True for r in res)`,
`error_name` (first non-null error when failing), `num_tests = len(res)`
and `num_passed = sum(1 for r in res if r is True)`.  An exception
escaping `run_test` is converted to an `EvaluationError` record. -/
def evaluate_single (env : Env) (g : Gen) : EvalResult :=
  let syntax_valid := g.cand.parses
  match run_test env g.cand g.io with
  | ExcOutcome.exc e =>
      { task_id := g.task_id
        passed := false
        syntax_valid := syntax_valid
        error := [some ⟨"EvaluationError", e.msg⟩]
        error_name := some "EvaluationError"
        num_tests := 0
        num_passed := 0 }
  | ExcOutcome.ok r =>
      let ok := r.res.all fun v => decide (v = Verdict.b true)
      { task_id := g.task_id
        passed := ok
        syntax_valid := syntax_valid
        error := r.err
        error_name := if ok then none else first_error_name r.err
        num_tests := r.res.length
        num_passed := (r.res.filter fun v => decide (v = Verdict.b true)).length }

/-- The `results` list of `evaluate`: `pool.imap(evaluate_single,
generations)` is an order-preserving map. -/
def evaluate_results (env : Env) (gens : List Gen) : List EvalResult :=
  gens.map (evaluate_single env)

/-- `errors[name] = errors.get(name, 0) + 1` on a dict modelled as an
insertion-ordered association list. -/
def hist_incr : List (String × Nat) → String → List (String × Nat)
  | [], k => [(k, 1)]
  | (k', v) :: rest, k =>
      if k' = k then (k', v + 1) :: rest else (k', v) :: hist_incr rest k

/-- One step of the histogram loop:
`if r["error_name"]: errors[r["error_name"]] = errors.get(..., 0) + 1`
(a `None` or empty name is falsy and contributes nothing). -/
def hist_step (acc : List (String × Nat)) (r : EvalResult) : List (String × Nat) :=
  match r.error_name with
  | some s => if s.isEmpty then acc else hist_incr acc s
  | none => acc

/-- The error histogram built by `evaluate` over its `results` list. -/
def error_histogram (results : List EvalResult) : List (String × Nat) :=
  results.foldl hist_step []

/-- Python truthiness of the `error_name` field (`if r["error_name"]:`). -/
def errorNameTruthy : Option String → Bool
  | some s => !s.isEmpty
  | none => false

/-- A value of the `inputs` / `outputs` key as `validate_io` sees it:
either a JSON list, or some non-list value. -/
inductive IoVal where
  | list : List PyVal → IoVal
  | nonList : PyVal → IoVal

/-- The parsed `input_output` object as passed to `validate_io`: a
non-dict JSON value, or a dict given as an association list. -/
inductive IoData where
  | nonDict : IoData
  | dict : List (String × IoVal) → IoData

/-- First-match key lookup in a Python dict modelled as an association
list. -/
def dict_lookup : List (String × IoVal) → String → Option IoVal
  | [], _ => none
  | (k', v) :: rest, k => if k' = k then some v else dict_lookup rest k

/-- `validate_io(io_data)` from `utils.py`: checks, in order, that the
value is a dict, that both `inputs` and `outputs` keys are present, that
both values are lists, and that the lists have equal length. -/
def validate_io (io_data : IoData) : Bool × String :=
  match io_data with
  | IoData.nonDict => (false, "Not a dict")
  | IoData.dict kvs =>
      match dict_lookup kvs "inputs", dict_lookup kvs "outputs" with
      | some ins, some outs =>
          match ins, outs with
          | IoVal.list l1, IoVal.list l2 =>
              if l1.length ≠ l2.length then (false, "Input/output length mismatch")
              else (true, "Valid")
          | _, _ => (false, "inputs/outputs must be lists")
      | _, _ => (false, "Missing inputs/outputs")

/-- The `input_output` dict a `TestSpec` was extracted from, as
`validate_io` would receive it. -/
def TestSpec.toIoData (s : TestSpec) : IoData :=
  IoData.dict
    ([("inputs", IoVal.list s.inputs), ("outputs", IoVal.list s.outputs)] ++
      (match s.fn_name with
       | some n => [("fn_name", IoVal.nonList (PyVal.str n))]
       | none => []))

/-- The candidate's dynamic behaviour raises only exceptions with a
non-empty type name — true of every real Python exception, whose type
name is a class identifier. -/
def Candidate.excNamesNonempty (c : Candidate) : Prop :=
  (∀ e, c.load = ExcOutcome.exc e → e.name ≠ "") ∧
  (∀ n i a e, c.callFn n i a = ExcOutcome.exc e → e.name ≠ "") ∧
  (∀ k e, c.script k = ExcOutcome.exc e → e.name ≠ "")


theorem run_script_eq_ok (cand : Candidate) (k : Nat) (st : OutStream) (out : String)
    (h : cand.script k = ExcOutcome.ok out) :
    _run_script_and_capture_output cand k st = (ExcOutcome.ok out, st) := by
  unfold _run_script_and_capture_output
  rw [h]

theorem run_script_eq_exc (cand : Candidate) (k : Nat) (st : OutStream) (e : PyExc)
    (h : cand.script k = ExcOutcome.exc e) :
    _run_script_and_capture_output cand k st = (ExcOutcome.exc e, st) := by
  unfold _run_script_and_capture_output
  rw [h]

theorem run_script_stdout (cand : Candidate) (k : Nat) (st : OutStream) :
    (_run_script_and_capture_output cand k st).2 = st := by
  cases h : cand.script k with
  | ok out => rw [run_script_eq_ok cand k st out h]
  | exc e => rw [run_script_eq_exc cand k st e h]

theorem runCase_eq_fn_exc (env : Env) (cand : Candidate) (spec : TestSpec) (i : Nat)
    (inp : PyVal) (st : OutStream) (n : String) (e : PyExc)
    (hf : spec.fn_name = some n)
    (hcall : cand.callFn n i (spreadArgs inp) = ExcOutcome.exc e) :
    runCase env cand spec i inp st =
      ⟨Verdict.b false, some ⟨e.name, e.tb⟩,
       (if env.signal_available then [env.timeout] else []) ++
         (if env.signal_available then [0] else []), st⟩ := by
  unfold runCase
  simp only [hf, hcall]

theorem runCase_eq_fn_idx (env : Env) (cand : Candidate) (spec : TestSpec) (i : Nat)
    (inp : PyVal) (st : OutStream) (n : String) (got : PyVal)
    (hf : spec.fn_name = some n)
    (hcall : cand.callFn n i (spreadArgs inp) = ExcOutcome.ok got)
    (ho : spec.outputs.get? i = none) :
    runCase env cand spec i inp st =
      ⟨Verdict.b false, some ⟨"IndexError", index_error_tb⟩,
       (if env.signal_available then [env.timeout] else []) ++
         (if env.signal_available then [0] else []), st⟩ := by
  unfold runCase
  simp only [hf, hcall, ho]

theorem runCase_eq_fn_ok (env : Env) (cand : Candidate) (spec : TestSpec) (i : Nat)
    (inp : PyVal) (st : OutStream) (n : String) (got expected : PyVal)
    (hf : spec.fn_name = some n)
    (hcall : cand.callFn n i (spreadArgs inp) = ExcOutcome.ok got)
    (ho : spec.outputs.get? i = some expected) :
    runCase env cand spec i inp st =
      ⟨Verdict.b (pyEq got expected),
       (if pyEq got expected then none else some ⟨"WrongOutput", pyStr got⟩),
       (if env.signal_available then [env.timeout] else []) ++
         (if env.signal_available then [0] else []), st⟩ := by
  unfold runCase
  simp only [hf, hcall, ho]

theorem runCase_eq_script_exc (env : Env) (cand : Candidate) (spec : TestSpec) (i : Nat)
    (inp : PyVal) (st : OutStream) (e : PyExc)
    (hf : spec.fn_name = none)
    (hscript : cand.script i = ExcOutcome.exc e) :
    runCase env cand spec i inp st =
      ⟨Verdict.b false, some ⟨e.name, e.tb⟩,
       (if env.signal_available then [env.timeout] else []) ++
         (if env.signal_available then [0] else []), st⟩ := by
  unfold runCase
  simp only [hf, run_script_eq_exc cand i st e hscript]

theorem runCase_eq_script_idx (env : Env) (cand : Candidate) (spec : TestSpec) (i : Nat)
    (inp : PyVal) (st : OutStream) (out : String)
    (hf : spec.fn_name = none)
    (hscript : cand.script i = ExcOutcome.ok out)
    (ho : spec.outputs.get? i = none) :
    runCase env cand spec i inp st =
      ⟨Verdict.b false, some ⟨"IndexError", index_error_tb⟩,
       (if env.signal_available then [env.timeout] else []) ++
         (if env.signal_available then [0] else []), st⟩ := by
  unfold runCase
  simp only [hf, run_script_eq_ok cand i st out hscript, ho]

theorem runCase_eq_script_ok (env : Env) (cand : Candidate) (spec : TestSpec) (i : Nat)
    (inp : PyVal) (st : OutStream) (out : String) (expected : PyVal)
    (hf : spec.fn_name = none)
    (hscript : cand.script i = ExcOutcome.ok out)
    (ho : spec.outputs.get? i = some expected) :
    runCase env cand spec i inp st =
      ⟨Verdict.b (pyStrip out == pyStrip (pyStr expected)),
       (if pyStrip out == pyStrip (pyStr expected) then none
        else some ⟨"WrongStdout", out⟩),
       (if env.signal_available then [env.timeout] else []) ++
         (if env.signal_available then [0] else []), st⟩ := by
  unfold runCase
  simp only [hf, run_script_eq_ok cand i st out hscript, ho]

theorem runCase_stdout (env : Env) (cand : Candidate) (spec : TestSpec) (i : Nat)
    (inp : PyVal) (st : OutStream) : (runCase env cand spec i inp st).stdout = st := by
  cases hf : spec.fn_name with
  | some n =>
      cases hcall : cand.callFn n i (spreadArgs inp) with
      | exc e => rw [runCase_eq_fn_exc env cand spec i inp st n e hf hcall]
      | ok got =>
          cases ho : spec.outputs.get? i with
          | none => rw [runCase_eq_fn_idx env cand spec i inp st n got hf hcall ho]
          | some expected =>
              rw [runCase_eq_fn_ok env cand spec i inp st n got expected hf hcall ho]
  | none =>
      cases hs : cand.script i with
      | exc e => rw [runCase_eq_script_exc env cand spec i inp st e hf hs]
      | ok out =>
          cases ho : spec.outputs.get? i with
          | none => rw [runCase_eq_script_idx env cand spec i inp st out hf hs ho]
          | some expected =>
              rw [runCase_eq_script_ok env cand spec i inp st out expected hf hs ho]

theorem runCase_alarms (env : Env) (cand : Candidate) (spec : TestSpec) (i : Nat)
    (inp : PyVal) (st : OutStream) :
    (runCase env cand spec i inp st).alarms
      = if env.signal_available then [env.timeout, 0] else [] := by
  have goal :
      ((if env.signal_available then [env.timeout] else []) ++
          (if env.signal_available then [0] else []) : List Nat)
        = if env.signal_available then [env.timeout, 0] else [] := by
    cases env.signal_available <;> rfl
  cases hf : spec.fn_name with
  | some n =>
      cases hcall : cand.callFn n i (spreadArgs inp) with
      | exc e => rw [runCase_eq_fn_exc env cand spec i inp st n e hf hcall]; exact goal
      | ok got =>
          cases ho : spec.outputs.get? i with
          | none => rw [runCase_eq_fn_idx env cand spec i inp st n got hf hcall ho]; exact goal
          | some expected =>
              rw [runCase_eq_fn_ok env cand spec i inp st n got expected hf hcall ho]
              exact goal
  | none =>
      cases hs : cand.script i with
      | exc e => rw [runCase_eq_script_exc env cand spec i inp st e hf hs]; exact goal
      | ok out =>
          cases ho : spec.outputs.get? i with
          | none => rw [runCase_eq_script_idx env cand spec i inp st out hf hs ho]; exact goal
          | some expected =>
              rw [runCase_eq_script_ok env cand spec i inp st out expected hf hs ho]
              exact goal

theorem runCase_err_none_iff (env : Env) (cand : Candidate) (spec : TestSpec) (i : Nat)
    (inp : PyVal) (st : OutStream) :
    (runCase env cand spec i inp st).err = none
      ↔ (runCase env cand spec i inp st).verdict = Verdict.b true := by
  cases hf : spec.fn_name with
  | some n =>
      cases hcall : cand.callFn n i (spreadArgs inp) with
      | exc e => rw [runCase_eq_fn_exc env cand spec i inp st n e hf hcall]; simp
      | ok got =>
          cases ho : spec.outputs.get? i with
          | none => rw [runCase_eq_fn_idx env cand spec i inp st n got hf hcall ho]; simp
          | some expected =>
              rw [runCase_eq_fn_ok env cand spec i inp st n got expected hf hcall ho]
              cases hq : pyEq got expected <;> simp
  | none =>
      cases hs : cand.script i with
      | exc e => rw [runCase_eq_script_exc env cand spec i inp st e hf hs]; simp
      | ok out =>
          cases ho : spec.outputs.get? i with
          | none => rw [runCase_eq_script_idx env cand spec i inp st out hf hs ho]; simp
          | some expected =>
              rw [runCase_eq_script_ok env cand spec i inp st out expected hf hs ho]
              cases hq : pyStrip out == pyStrip (pyStr expected) <;> simp

theorem runCase_err_name_ne (env : Env) (cand : Candidate) (spec : TestSpec) (i : Nat)
    (inp : PyVal) (st : OutStream) (hc : cand.excNamesNonempty) :
    ∀ e, (runCase env cand spec i inp st).err = some e → e.name ≠ "" := by
  intro e
  cases hf : spec.fn_name with
  | some n =>
      cases hcall : cand.callFn n i (spreadArgs inp) with
      | exc ex =>
          rw [runCase_eq_fn_exc env cand spec i inp st n ex hf hcall]
          intro h
          have hx := hc.2.1 n i (spreadArgs inp) ex hcall
          simp at h
          rw [← h]
          exact hx
      | ok got =>
          cases ho : spec.outputs.get? i with
          | none =>
              rw [runCase_eq_fn_idx env cand spec i inp st n got hf hcall ho]
              intro h
              simp at h
              rw [← h]
              simp [index_error_tb]
          | some expected =>
              rw [runCase_eq_fn_ok env cand spec i inp st n got expected hf hcall ho]
              cases hq : pyEq got expected with
              | true => simp
              | false =>
                  intro h
                  simp at h
                  rw [← h]
                  simp
  | none =>
      cases hs : cand.script i with
      | exc ex =>
          rw [runCase_eq_script_exc env cand spec i inp st ex hf hs]
          intro h
          have hx := hc.2.2 i ex hs
          simp at h
          rw [← h]
          exact hx
      | ok out =>
          cases ho : spec.outputs.get? i with
          | none =>
              rw [runCase_eq_script_idx env cand spec i inp st out hf hs ho]
              intro h
              simp at h
              rw [← h]
              simp [index_error_tb]
          | some expected =>
              rw [runCase_eq_script_ok env cand spec i inp st out expected hf hs ho]
              cases hq : pyStrip out == pyStrip (pyStr expected) with
              | true => simp
              | false =>
                  intro h
                  simp at h
                  rw [← h]
                  simp

theorem runCases_stdout (env : Env) (cand : Candidate) (spec : TestSpec) :
    ∀ (ins : List PyVal) (i : Nat) (st : OutStream),
      (runCases env cand spec i ins st).stdout = st := by
  intro ins
  induction ins with
  | nil => intro i st; rfl
  | cons inp rest ih =>
      intro i st
      show (runCases env cand spec i (inp :: rest) st).stdout = st
      unfold runCases
      simp only []
      rw [ih (i + 1) (runCase env cand spec i inp st).stdout]
      exact runCase_stdout env cand spec i inp st

theorem runCases_res_length (env : Env) (cand : Candidate) (spec : TestSpec) :
    ∀ (ins : List PyVal) (i : Nat) (st : OutStream),
      (runCases env cand spec i ins st).res.length = ins.length := by
  intro ins
  induction ins with
  | nil => intro i st; rfl
  | cons inp rest ih =>
      intro i st
      unfold runCases
      simp only [List.length_cons]
      rw [ih]

theorem runCases_err_length (env : Env) (cand : Candidate) (spec : TestSpec) :
    ∀ (ins : List PyVal) (i : Nat) (st : OutStream),
      (runCases env cand spec i ins st).err.length = ins.length := by
  intro ins
  induction ins with
  | nil => intro i st; rfl
  | cons inp rest ih =>
      intro i st
      unfold runCases
      simp only [List.length_cons]
      rw [ih]

theorem runCases_get (env : Env) (cand : Candidate) (spec : TestSpec) :
    ∀ (ins : List PyVal) (i k : Nat) (st : OutStream) (inp : PyVal),
      ins.get? k = some inp →
        (runCases env cand spec i ins st).res.get? k
            = some (runCase env cand spec (i + k) inp st).verdict ∧
        (runCases env cand spec i ins st).err.get? k
            = some (runCase env cand spec (i + k) inp st).err := by
  intro ins
  induction ins with
  | nil => intro i k st inp h; simp at h
  | cons hd rest ih =>
      intro i k st inp h
      cases k with
      | zero =>
          simp at h
          subst h
          unfold runCases
          simp
      | succ k' =>
          rw [List.get?_cons_succ] at h
          unfold runCases
          simp only []
          rw [runCase_stdout env cand spec i hd st]
          have := ih (i + 1) k' st inp h
          constructor
          · show (runCases env cand spec (i + 1) rest st).res.get? k'
                = some (runCase env cand spec (i + (k' + 1)) inp st).verdict
            rw [this.1]
            have harith : i + 1 + k' = i + (k' + 1) := by omega
            rw [harith]
          · show (runCases env cand spec (i + 1) rest st).err.get? k'
                = some (runCase env cand spec (i + (k' + 1)) inp st).err
            rw [this.2]
            have harith : i + 1 + k' = i + (k' + 1) := by omega
            rw [harith]

theorem runCases_alarms (env : Env) (cand : Candidate) (spec : TestSpec) :
    ∀ (ins : List PyVal) (i : Nat) (st : OutStream),
      (runCases env cand spec i ins st).alarms
        = List.flatten (List.replicate ins.length
            (if env.signal_available then [env.timeout, 0] else [])) := by
  intro ins
  induction ins with
  | nil => intro i st; rfl
  | cons inp rest ih =>
      intro i st
      unfold runCases
      simp only [List.length_cons, List.replicate_succ, List.flatten_cons]
      rw [runCase_alarms env cand spec i inp st, ih]

theorem runCases_err_names (env : Env) (cand : Candidate) (spec : TestSpec)
    (hc : cand.excNamesNonempty) :
    ∀ (ins : List PyVal) (i : Nat) (st : OutStream),
      ∀ o ∈ (runCases env cand spec i ins st).err, ∀ e, o = some e → e.name ≠ "" := by
  intro ins
  induction ins with
  | nil => intro i st o ho; simp [runCases] at ho
  | cons inp rest ih =>
      intro i st o ho e hoe
      unfold runCases at ho
      simp only [List.mem_cons] at ho
      cases ho with
      | inl h =>
          subst h
          exact runCase_err_name_ne env cand spec i inp st hc e hoe
      | inr h =>
          exact ih (i + 1) (runCase env cand spec i inp st).stdout o h e hoe

theorem runCases_exists_some_err (env : Env) (cand : Candidate) (spec : TestSpec) :
    ∀ (ins : List PyVal) (i : Nat) (st : OutStream),
      ((runCases env cand spec i ins st).res.all fun v => decide (v = Verdict.b true)) = false →
        ∃ o ∈ (runCases env cand spec i ins st).err, o ≠ none := by
  intro ins
  induction ins with
  | nil => intro i st h; simp [runCases] at h
  | cons inp rest ih =>
      intro i st h
      unfold runCases at h ⊢
      simp only [List.all_cons, Bool.and_eq_false_iff] at h
      simp only [List.mem_cons]
      cases h with
      | inl h =>
          refine ⟨(runCase env cand spec i inp st).err, Or.inl rfl, ?_⟩
          intro hnone
          have := (runCase_err_none_iff env cand spec i inp st).1 hnone
          rw [this] at h
          simp at h
      | inr h =>
          obtain ⟨o, ho, hone⟩ := ih (i + 1) (runCase env cand spec i inp st).stdout h
          exact ⟨o, Or.inr ho, hone⟩

theorem run_test_eq_io_exc (env : Env) (cand : Candidate) (e : PyExc) :
    run_test env cand (ExcOutcome.exc e) = ExcOutcome.exc e := rfl

theorem run_test_eq_load_exc (env : Env) (cand : Candidate) (spec : TestSpec) (e : PyExc)
    (h : cand.load = ExcOutcome.exc e) :
    run_test env cand (ExcOutcome.ok spec)
      = ExcOutcome.ok ⟨[Verdict.sentinel], [some ⟨e.name, e.msg⟩], [], env.stdout⟩ := by
  unfold run_test
  simp only [h]

theorem run_test_eq_load_ok (env : Env) (cand : Candidate) (spec : TestSpec)
    (h : cand.load = ExcOutcome.ok ()) :
    run_test env cand (ExcOutcome.ok spec)
      = ExcOutcome.ok (runCases env cand spec 0 spec.inputs env.stdout) := by
  unfold run_test
  simp only [h]

theorem evaluate_single_eq_exc (env : Env) (g : Gen) (e : PyExc)
    (h : run_test env g.cand g.io = ExcOutcome.exc e) :
    evaluate_single env g =
      ⟨g.task_id, false, g.cand.parses, [some ⟨"EvaluationError", e.msg⟩],
       some "EvaluationError", 0, 0⟩ := by
  unfold evaluate_single
  simp only [h]

theorem evaluate_single_eq_ok (env : Env) (g : Gen) (r : RunLists)
    (h : run_test env g.cand g.io = ExcOutcome.ok r) :
    evaluate_single env g =
      ⟨g.task_id, r.res.all fun v => decide (v = Verdict.b true), g.cand.parses, r.err,
       (if (r.res.all fun v => decide (v = Verdict.b true))
        then none else first_error_name r.err),
       r.res.length, (r.res.filter fun v => decide (v = Verdict.b true)).length⟩ := by
  unfold evaluate_single
  simp only [h]

theorem first_error_name_some :
    ∀ errs : List (Option ErrEntry),
      (∃ o ∈ errs, o ≠ none) →
      (∀ o ∈ errs, ∀ e, o = some e → e.name ≠ "") →
        ∃ s, first_error_name errs = some s ∧ s ≠ "" := by
  intro errs
  induction errs with
  | nil => intro hex _; simp at hex
  | cons hd rest ih =>
      intro hex hnames
      cases hd with
      | some e =>
          refine ⟨e.name, rfl, ?_⟩
          exact hnames (some e) (List.mem_cons_self _ _) e rfl
      | none =>
          have hex' : ∃ o ∈ rest, o ≠ none := by
            obtain ⟨o, ho, hone⟩ := hex
            simp only [List.mem_cons] at ho
            cases ho with
            | inl h => exact absurd h.symm (fun hh => hone hh.symm)
            | inr h => exact ⟨o, h, hone⟩
          have hnames' : ∀ o ∈ rest, ∀ e, o = some e → e.name ≠ "" := by
            intro o ho e hoe
            exact hnames o (List.mem_cons_of_mem _ ho) e hoe
          exact ih hex' hnames'

theorem hist_incr_sum :
    ∀ (h : List (String × Nat)) (k : String),
      ((hist_incr h k).map Prod.snd).sum = ((h.map Prod.snd).sum) + 1 := by
  intro h
  induction h with
  | nil => intro k; rfl
  | cons hd rest ih =>
      intro k
      rcases hd with ⟨k', v⟩
      unfold hist_incr
      by_cases hk : k' = k
      · simp only [if_pos hk, List.map_cons, List.sum_cons]
        omega
      · simp only [if_neg hk, List.map_cons, List.sum_cons, ih k]
        omega

theorem foldl_hist_sum :
    ∀ (rs : List EvalResult) (acc : List (String × Nat)),
      ((rs.foldl hist_step acc).map Prod.snd).sum
        = ((acc.map Prod.snd).sum) + rs.countP (fun r => errorNameTruthy r.error_name) := by
  intro rs
  induction rs with
  | nil => intro acc; simp
  | cons r rest ih =>
      intro acc
      simp only [List.foldl_cons, List.countP_cons, ih (hist_step acc r)]
      have hstep : ((hist_step acc r).map Prod.snd).sum
          = ((acc.map Prod.snd).sum)
            + (if errorNameTruthy r.error_name then 1 else 0) := by
        unfold hist_step errorNameTruthy
        cases hname : r.error_name with
        | none => simp
        | some s =>
            cases hs : s.isEmpty with
            | true => simp [hs]
            | false => simp [hs, hist_incr_sum]
      rw [hstep]
      cases errorNameTruthy r.error_name with
      | false => simp
      | true => simp; omega

theorem isEmpty_false_of_ne (s : String) (h : s ≠ "") : s.isEmpty = false := by
  cases hs : s.isEmpty with
  | false => rfl
  | true => exact absurd ((String.isEmpty_iff s).mp hs) h

theorem evaluate_single_truthy (env : Env) (g : Gen) (hc : g.cand.excNamesNonempty) :
    errorNameTruthy (evaluate_single env g).error_name = !(evaluate_single env g).passed := by
  cases hio : g.io with
  | exc e =>
      have hrun : run_test env g.cand g.io = ExcOutcome.exc e := by rw [hio]; rfl
      rw [evaluate_single_eq_exc env g e hrun]
      rfl
  | ok spec =>
      cases hload : g.cand.load with
      | exc e =>
          have hrun : run_test env g.cand g.io
              = ExcOutcome.ok ⟨[Verdict.sentinel], [some ⟨e.name, e.msg⟩], [], env.stdout⟩ := by
            rw [hio]
            exact run_test_eq_load_exc env g.cand spec e hload
          rw [evaluate_single_eq_ok env g _ hrun]
          have hne := hc.1 e hload
          simp [first_error_name, errorNameTruthy, isEmpty_false_of_ne e.name hne]
      | ok u =>
          cases u
          have hrun : run_test env g.cand g.io
              = ExcOutcome.ok (runCases env g.cand spec 0 spec.inputs env.stdout) := by
            rw [hio]
            exact run_test_eq_load_ok env g.cand spec hload
          rw [evaluate_single_eq_ok env g _ hrun]
          cases hall : (runCases env g.cand spec 0 spec.inputs env.stdout).res.all
              (fun v => decide (v = Verdict.b true)) with
          | true => simp [hall, errorNameTruthy]
          | false =>
              have hex := runCases_exists_some_err env g.cand spec spec.inputs 0 env.stdout hall
              have hnames := runCases_err_names env g.cand spec hc spec.inputs 0 env.stdout
              obtain ⟨s, hs, hsne⟩ :=
                first_error_name_some (runCases env g.cand spec 0 spec.inputs env.stdout).err
                  hex hnames
              simp [hall, hs, errorNameTruthy, isEmpty_false_of_ne s hsne]

theorem countP_truthy (env : Env) :
    ∀ gens : List Gen, (∀ g ∈ gens, g.cand.excNamesNonempty) →
      ((evaluate_results env gens).countP fun r => errorNameTruthy r.error_name)
        = ((evaluate_results env gens).countP fun r => !r.passed) := by
  intro gens
  induction gens with
  | nil => intro _; rfl
  | cons g rest ih =>
      intro h
      unfold evaluate_results at ih ⊢
      simp only [List.map_cons, List.countP_cons]
      rw [ih (fun g' hg' => h g' (List.mem_cons_of_mem _ hg')),
        evaluate_single_truthy env g (h g (List.mem_cons_self _ _))]

/-! Concrete fixtures used by the witnesses below. -/

def wStream : OutStream := ⟨0⟩

def wEnv : Env := ⟨true, TIMEOUT, wStream⟩

def wEnvNoSig : Env := ⟨false, TIMEOUT, wStream⟩

/-- A well-behaved candidate: parses, loads, defines `add` summing two
ints, and prints `5` in script mode. -/
def addCand : Candidate where
  parses := true
  load := ExcOutcome.ok ()
  callFn := fun n _ args =>
    if n = "add" then
      match args with
      | [PyVal.int a, PyVal.int b] => ExcOutcome.ok (PyVal.int (a + b))
      | _ => ExcOutcome.exc ⟨"TypeError", "bad arguments", "Traceback: TypeError"⟩
    else ExcOutcome.exc ⟨"AttributeError", "no attribute", "Traceback: AttributeError"⟩
  script := fun _ => ExcOutcome.ok "5\n"

/-- A candidate whose source fails to load (syntax error at exec time). -/
def loadFailCand : Candidate where
  parses := false
  load := ExcOutcome.exc ⟨"SyntaxError", "invalid syntax", "Traceback: SyntaxError"⟩
  callFn := fun _ _ _ => ExcOutcome.ok PyVal.none
  script := fun _ => ExcOutcome.ok ""

/-- A candidate that loads but raises on every case. -/
def raiseCand : Candidate where
  parses := true
  load := ExcOutcome.ok ()
  callFn := fun _ _ _ => ExcOutcome.exc ⟨"ValueError", "boom", "Traceback: ValueError"⟩
  script := fun _ => ExcOutcome.exc ⟨"ZeroDivisionError", "division by zero",
    "Traceback: ZeroDivisionError"⟩

/-- A candidate whose every case is interrupted by the alarm: the handler
raises the `Timeout` exception. -/
def timeoutCand : Candidate where
  parses := true
  load := ExcOutcome.ok ()
  callFn := fun _ _ _ => ExcOutcome.exc ⟨"Timeout", "", "Traceback: Timeout"⟩
  script := fun _ => ExcOutcome.exc ⟨"Timeout", "", "Traceback: Timeout"⟩

/-- A candidate that loads and never raises. -/
def pureCand : Candidate where
  parses := true
  load := ExcOutcome.ok ()
  callFn := fun _ _ args => ExcOutcome.ok (PyVal.list args)
  script := fun _ => ExcOutcome.ok "ok"

def addSpec : TestSpec := ⟨[PyVal.list [PyVal.int 1, PyVal.int 2]], [PyVal.int 3], some "add"⟩

def scriptSpec : TestSpec := ⟨[PyVal.str "x"], [PyVal.str "5"], none⟩

/-- C1: for a candidate whose source instantiates successfully, `run_test`
returns verdict and error lists whose lengths both equal the number of
input cases, positionally aligned (the i-th error is null exactly when the
i-th verdict is a pass); for a candidate whose instantiation raises, both
lists hold exactly one sentinel entry. -/
theorem claim_C1 (env : Env) (cand : Candidate) (spec : TestSpec) :
    (cand.load = ExcOutcome.ok () →
      ∃ r, run_test env cand (ExcOutcome.ok spec) = ExcOutcome.ok r ∧
        r.res.length = spec.inputs.length ∧
        r.err.length = spec.inputs.length ∧
        (∀ i, r.res.get? i = some (Verdict.b true) ↔ r.err.get? i = some none)) ∧
    (∀ e, cand.load = ExcOutcome.exc e →
      ∃ r, run_test env cand (ExcOutcome.ok spec) = ExcOutcome.ok r ∧
        r.res.length = 1 ∧ r.err.length = 1) := by
  constructor
  · intro hload
    refine ⟨runCases env cand spec 0 spec.inputs env.stdout,
      run_test_eq_load_ok env cand spec hload,
      runCases_res_length env cand spec spec.inputs 0 env.stdout,
      runCases_err_length env cand spec spec.inputs 0 env.stdout, ?_⟩
    intro i
    cases hx : spec.inputs.get? i with
    | some inp =>
        obtain ⟨h1, h2⟩ := runCases_get env cand spec spec.inputs 0 i env.stdout inp hx
        rw [h1, h2]
        constructor
        · intro hv
          rw [Option.some_inj]
          exact (runCase_err_none_iff env cand spec (0 + i) inp env.stdout).2
            (Option.some_inj.mp hv)
        · intro he
          rw [Option.some_inj]
          exact (runCase_err_none_iff env cand spec (0 + i) inp env.stdout).1
            (Option.some_inj.mp he)
    | none =>
        have hlen : spec.inputs.length ≤ i := List.get?_eq_none.mp hx
        have h1 : (runCases env cand spec 0 spec.inputs env.stdout).res.get? i = none := by
          rw [List.get?_eq_none, runCases_res_length]
          exact hlen
        have h2 : (runCases env cand spec 0 spec.inputs env.stdout).err.get? i = none := by
          rw [List.get?_eq_none, runCases_err_length]
          exact hlen
        rw [h1, h2]
        simp
  · intro e hload
    exact ⟨_, run_test_eq_load_exc env cand spec e hload, rfl, rfl⟩

theorem claim_C1_witness :
    (∃ r, run_test wEnv addCand (ExcOutcome.ok addSpec) = ExcOutcome.ok r ∧
        r.res.length = addSpec.inputs.length ∧
        r.err.length = addSpec.inputs.length ∧
        (∀ i, r.res.get? i = some (Verdict.b true) ↔ r.err.get? i = some none)) ∧
    (∃ r, run_test wEnv loadFailCand (ExcOutcome.ok addSpec) = ExcOutcome.ok r ∧
        r.res.length = 1 ∧ r.err.length = 1) :=
  ⟨(claim_C1 wEnv addCand addSpec).1 rfl,
   (claim_C1 wEnv loadFailCand addSpec).2
     ⟨"SyntaxError", "invalid syntax", "Traceback: SyntaxError"⟩ rfl⟩

def gLoadFail : Gen := ⟨"t_load_fail", loadFailCand, ExcOutcome.ok addSpec⟩

/-- C2: when instantiation of the candidate source raises, `execute`
short-circuits: `run_test` returns the single-element sentinel verdict
`[-2]` — a value distinct from every normal boolean test-case verdict —
paired with one error descriptor carrying the raised exception's type name
and message; the result is independent of the per-case behaviour (no case
evaluation runs), and `evaluate_single` derives `passed = false` with no
case counted as passed. -/
theorem claim_C2 (env : Env) (g : Gen) (spec : TestSpec) (e : PyExc)
    (hio : g.io = ExcOutcome.ok spec)
    (hload : g.cand.load = ExcOutcome.exc e) :
    run_test env g.cand g.io
      = ExcOutcome.ok ⟨[Verdict.sentinel], [some ⟨e.name, e.msg⟩], [], env.stdout⟩ ∧
    (∀ b, Verdict.sentinel ≠ Verdict.b b) ∧
    (∀ f s, run_test env ⟨g.cand.parses, g.cand.load, f, s⟩ g.io
        = run_test env g.cand g.io) ∧
    (evaluate_single env g).passed = false ∧
    (evaluate_single env g).error = [some ⟨e.name, e.msg⟩] ∧
    (evaluate_single env g).num_passed = 0 := by
  have hrun : run_test env g.cand g.io
      = ExcOutcome.ok ⟨[Verdict.sentinel], [some ⟨e.name, e.msg⟩], [], env.stdout⟩ := by
    rw [hio]
    exact run_test_eq_load_exc env g.cand spec e hload
  refine ⟨hrun, ?_, ?_, ?_, ?_, ?_⟩
  · intro b h
    cases h
  · intro f s
    rw [hio, run_test_eq_load_exc env g.cand spec e hload,
      run_test_eq_load_exc env ⟨g.cand.parses, g.cand.load, f, s⟩ spec e hload]
  · rw [evaluate_single_eq_ok env g _ hrun]
    simp
  · rw [evaluate_single_eq_ok env g _ hrun]
  · rw [evaluate_single_eq_ok env g _ hrun]
    simp

theorem claim_C2_witness :
    run_test wEnv gLoadFail.cand gLoadFail.io
      = ExcOutcome.ok ⟨[Verdict.sentinel],
          [some ⟨"SyntaxError", "invalid syntax"⟩], [], wStream⟩ ∧
    (evaluate_single wEnv gLoadFail).passed = false ∧
    (evaluate_single wEnv gLoadFail).num_passed = 0 :=
  ⟨(claim_C2 wEnv gLoadFail addSpec
      ⟨"SyntaxError", "invalid syntax", "Traceback: SyntaxError"⟩ rfl rfl).1,
   (claim_C2 wEnv gLoadFail addSpec
      ⟨"SyntaxError", "invalid syntax", "Traceback: SyntaxError"⟩ rfl rfl).2.2.2.1,
   (claim_C2 wEnv gLoadFail addSpec
      ⟨"SyntaxError", "invalid syntax", "Traceback: SyntaxError"⟩ rfl rfl).2.2.2.2.2⟩

/-- C3: in function mode, a case reached after a successful load invokes
the named callable on the case input — spread positionally when the input
is a list, passed as sole argument otherwise — and compares the returned
value to the expected value with deep structural equality; a match yields
verdict true with null error, a mismatch yields verdict false with error
kind `WrongOutput` and detail the stringified actual return value. -/
theorem claim_C3 (env : Env) (cand : Candidate) (spec : TestSpec) (n : String)
    (i : Nat) (inp got expected : PyVal)
    (hload : cand.load = ExcOutcome.ok ())
    (hfn : spec.fn_name = some n)
    (hin : spec.inputs.get? i = some inp)
    (hcall : cand.callFn n i (spreadArgs inp) = ExcOutcome.ok got)
    (hout : spec.outputs.get? i = some expected) :
    (∀ l, inp = PyVal.list l → spreadArgs inp = l) ∧
    ((∀ l, inp ≠ PyVal.list l) → spreadArgs inp = [inp]) ∧
    (pyEq got expected = true ↔ got = expected) ∧
    ∃ r, run_test env cand (ExcOutcome.ok spec) = ExcOutcome.ok r ∧
      r.res.get? i = some (Verdict.b (pyEq got expected)) ∧
      r.err.get? i = some (if pyEq got expected then none
                           else some ⟨"WrongOutput", pyStr got⟩) := by
  refine ⟨?_, ?_, pyEq_iff got expected, ?_⟩
  · intro l h
    rw [h]
    rfl
  · intro h
    cases inp with
    | list l => exact absurd rfl (h l)
    | none => rfl
    | bool x => rfl
    | int x => rfl
    | str x => rfl
  · obtain ⟨h1, h2⟩ := runCases_get env cand spec spec.inputs 0 i env.stdout inp hin
    rw [Nat.zero_add] at h1 h2
    rw [runCase_eq_fn_ok env cand spec i inp env.stdout n got expected hfn hcall hout]
      at h1 h2
    exact ⟨runCases env cand spec 0 spec.inputs env.stdout,
      run_test_eq_load_ok env cand spec hload, h1, h2⟩

theorem claim_C3_witness :
    ∃ r, run_test wEnv addCand (ExcOutcome.ok addSpec) = ExcOutcome.ok r ∧
      r.res.get? 0 = some (Verdict.b (pyEq (PyVal.int 3) (PyVal.int 3))) ∧
      r.err.get? 0 = some (if pyEq (PyVal.int 3) (PyVal.int 3) then none
                           else some ⟨"WrongOutput", pyStr (PyVal.int 3)⟩) :=
  (claim_C3 wEnv addCand addSpec "add" 0 (PyVal.list [PyVal.int 1, PyVal.int 2])
    (PyVal.int 3) (PyVal.int 3) rfl rfl rfl rfl rfl).2.2.2

/-- C4: in script mode, a case reached after a successful load re-executes
the full candidate source through `_run_script_and_capture_output` with
stdout captured into a private buffer; the verdict is true iff the
captured text, trimmed, equals the expected output coerced to a string and
trimmed the same way, and a mismatch yields verdict false with error kind
`WrongStdout` and detail the (untrimmed) captured text. -/
theorem claim_C4 (env : Env) (cand : Candidate) (spec : TestSpec)
    (i : Nat) (inp : PyVal) (out : String) (expected : PyVal)
    (hload : cand.load = ExcOutcome.ok ())
    (hfn : spec.fn_name = none)
    (hin : spec.inputs.get? i = some inp)
    (hscript : cand.script i = ExcOutcome.ok out)
    (hout : spec.outputs.get? i = some expected) :
    _run_script_and_capture_output cand i env.stdout = (ExcOutcome.ok out, env.stdout) ∧
    ∃ r, run_test env cand (ExcOutcome.ok spec) = ExcOutcome.ok r ∧
      r.res.get? i = some (Verdict.b (pyStrip out == pyStrip (pyStr expected))) ∧
      r.err.get? i = some (if pyStrip out == pyStrip (pyStr expected) then none
                           else some ⟨"WrongStdout", out⟩) := by
  refine ⟨run_script_eq_ok cand i env.stdout out hscript, ?_⟩
  obtain ⟨h1, h2⟩ := runCases_get env cand spec spec.inputs 0 i env.stdout inp hin
  rw [Nat.zero_add] at h1 h2
  rw [runCase_eq_script_ok env cand spec i inp env.stdout out expected hfn hscript hout]
    at h1 h2
  exact ⟨runCases env cand spec 0 spec.inputs env.stdout,
    run_test_eq_load_ok env cand spec hload, h1, h2⟩

theorem claim_C4_witness :
    ∃ r, run_test wEnv addCand (ExcOutcome.ok scriptSpec) = ExcOutcome.ok r ∧
      r.res.get? 0 = some (Verdict.b (pyStrip "5\n" == pyStrip (pyStr (PyVal.str "5")))) ∧
      r.err.get? 0 = some (if pyStrip "5\n" == pyStrip (pyStr (PyVal.str "5")) then none
                           else some ⟨"WrongStdout", "5\n"⟩) :=
  ((claim_C4 wEnv addCand scriptSpec 0 (PyVal.str "x") "5\n" (PyVal.str "5")
    rfl rfl rfl rfl rfl).2)

/-- C5: an exception raised while evaluating a case after a successful
load is caught inside the per-case loop and recorded in place — verdict
false, error kind the exception's own type name, detail its formatted
traceback — and evaluation continues with the remaining cases:
`run_test` still returns (does not propagate) with one verdict and one
error per input case. -/
theorem claim_C5 (env : Env) (cand : Candidate) (spec : TestSpec)
    (i : Nat) (inp : PyVal) (e : PyExc)
    (hload : cand.load = ExcOutcome.ok ())
    (hin : spec.inputs.get? i = some inp)
    (hexc : spec.fn_name.elim (cand.script i = ExcOutcome.exc e)
        (fun n => cand.callFn n i (spreadArgs inp) = ExcOutcome.exc e)) :
    ∃ r, run_test env cand (ExcOutcome.ok spec) = ExcOutcome.ok r ∧
      r.res.get? i = some (Verdict.b false) ∧
      r.err.get? i = some (some ⟨e.name, e.tb⟩) ∧
      r.res.length = spec.inputs.length ∧
      r.err.length = spec.inputs.length := by
  obtain ⟨h1, h2⟩ := runCases_get env cand spec spec.inputs 0 i env.stdout inp hin
  rw [Nat.zero_add] at h1 h2
  cases hfn : spec.fn_name with
  | some n =>
      rw [hfn] at hexc
      simp only [Option.elim_some] at hexc
      rw [runCase_eq_fn_exc env cand spec i inp env.stdout n e hfn hexc] at h1 h2
      exact ⟨runCases env cand spec 0 spec.inputs env.stdout,
        run_test_eq_load_ok env cand spec hload, h1, h2,
        runCases_res_length env cand spec spec.inputs 0 env.stdout,
        runCases_err_length env cand spec spec.inputs 0 env.stdout⟩
  | none =>
      rw [hfn] at hexc
      simp only [Option.elim_none] at hexc
      rw [runCase_eq_script_exc env cand spec i inp env.stdout e hfn hexc] at h1 h2
      exact ⟨runCases env cand spec 0 spec.inputs env.stdout,
        run_test_eq_load_ok env cand spec hload, h1, h2,
        runCases_res_length env cand spec spec.inputs 0 env.stdout,
        runCases_err_length env cand spec spec.inputs 0 env.stdout⟩

theorem claim_C5_witness :
    ∃ r, run_test wEnv raiseCand (ExcOutcome.ok addSpec) = ExcOutcome.ok r ∧
      r.res.get? 0 = some (Verdict.b false) ∧
      r.err.get? 0 = some (some ⟨"ValueError", "Traceback: ValueError"⟩) ∧
      r.res.length = addSpec.inputs.length ∧
      r.err.length = addSpec.inputs.length :=
  claim_C5 wEnv raiseCand addSpec 0 (PyVal.list [PyVal.int 1, PyVal.int 2])
    ⟨"ValueError", "boom", "Traceback: ValueError"⟩ rfl rfl rfl

theorem flatten_replicate_nil (n : Nat) :
    (List.replicate n ([] : List Nat)).flatten = [] := by
  induction n with
  | zero => rfl
  | succ n ih => simp [List.replicate_succ, ih]

/-- C6: before each case the wall-clock alarm is armed with the timeout
value (module default `TIMEOUT = 10`) and disarmed again before the next
case, on the success path and on the exception path alike, so the trace
of `signal.alarm` calls is `[timeout, 0]` once per case; a case whose
execution is interrupted by the alarm (the handler raises the
`Timeout`-named exception) is recorded with error kind `Timeout` and
later cases still run; when no preemptive signal mechanism exists
(`SIGNAL_AVAILABLE = False`) the alarm is never armed and module import
emits an explicit degraded-mode warning. -/
theorem claim_C6 (env : Env) (cand : Candidate) (spec : TestSpec)
    (hload : cand.load = ExcOutcome.ok ()) :
    TIMEOUT = 10 ∧
    module_init_warnings false = ["Warning: Timeout not available on Windows"] ∧
    module_init_warnings true = [] ∧
    ∃ r, run_test env cand (ExcOutcome.ok spec) = ExcOutcome.ok r ∧
      (env.signal_available = true →
        r.alarms = (List.replicate spec.inputs.length [env.timeout, 0]).flatten) ∧
      (env.signal_available = false → r.alarms = []) ∧
      (∀ i inp e, spec.inputs.get? i = some inp → e.name = "Timeout" →
        spec.fn_name.elim (cand.script i = ExcOutcome.exc e)
          (fun n => cand.callFn n i (spreadArgs inp) = ExcOutcome.exc e) →
        r.res.get? i = some (Verdict.b false) ∧
        r.err.get? i = some (some ⟨"Timeout", e.tb⟩) ∧
        r.res.length = spec.inputs.length) := by
  refine ⟨rfl, rfl, rfl,
    runCases env cand spec 0 spec.inputs env.stdout,
    run_test_eq_load_ok env cand spec hload, ?_, ?_, ?_⟩
  · intro hsig
    rw [runCases_alarms env cand spec spec.inputs 0 env.stdout, hsig]
    simp
  · intro hsig
    rw [runCases_alarms env cand spec spec.inputs 0 env.stdout, hsig]
    simp [flatten_replicate_nil]
  · intro i inp e hin hname hexc
    obtain ⟨h1, h2⟩ := runCases_get env cand spec spec.inputs 0 i env.stdout inp hin
    rw [Nat.zero_add] at h1 h2
    cases hfn : spec.fn_name with
    | some n =>
        rw [hfn] at hexc
        simp only [Option.elim_some] at hexc
        rw [runCase_eq_fn_exc env cand spec i inp env.stdout n e hfn hexc] at h1 h2
        rw [hname] at h2
        exact ⟨h1, h2, runCases_res_length env cand spec spec.inputs 0 env.stdout⟩
    | none =>
        rw [hfn] at hexc
        simp only [Option.elim_none] at hexc
        rw [runCase_eq_script_exc env cand spec i inp env.stdout e hfn hexc] at h1 h2
        rw [hname] at h2
        exact ⟨h1, h2, runCases_res_length env cand spec spec.inputs 0 env.stdout⟩

theorem claim_C6_witness :
    TIMEOUT = 10 ∧
    (∃ r, run_test wEnv timeoutCand (ExcOutcome.ok addSpec) = ExcOutcome.ok r ∧
      r.alarms = (List.replicate addSpec.inputs.length [10, 0]).flatten ∧
      r.res.get? 0 = some (Verdict.b false) ∧
      r.err.get? 0 = some (some ⟨"Timeout", "Traceback: Timeout"⟩)) ∧
    (∃ r, run_test wEnvNoSig timeoutCand (ExcOutcome.ok addSpec) = ExcOutcome.ok r ∧
      r.alarms = [] ∧
      module_init_warnings false = ["Warning: Timeout not available on Windows"]) := by
  refine ⟨(claim_C6 wEnv timeoutCand addSpec rfl).1, ?_, ?_⟩
  · obtain ⟨_, _, _, r, hr, halarm, _, hcase⟩ := claim_C6 wEnv timeoutCand addSpec rfl
    obtain ⟨hv, he, _⟩ := hcase 0 (PyVal.list [PyVal.int 1, PyVal.int 2])
      ⟨"Timeout", "", "Traceback: Timeout"⟩ rfl rfl rfl
    exact ⟨r, hr, halarm rfl, hv, he⟩
  · obtain ⟨_, hw, _, r, hr, _, halarm, _⟩ := claim_C6 wEnvNoSig timeoutCand addSpec rfl
    exact ⟨r, hr, halarm rfl, hw⟩

def emptySpec : TestSpec := ⟨[], [], some "f"⟩

def gEmpty : Gen := ⟨"t_empty", pureCand, ExcOutcome.ok emptySpec⟩

def gPure : Gen := ⟨"t_pure", pureCand, ExcOutcome.ok addSpec⟩

/-- C7: the derived `passed` flag is true iff every per-case verdict is
exactly `True`; for a successfully loaded candidate with an empty case
list the verdict list is empty and `passed` is vacuously true with
`num_tests = 0` and `num_passed = 0`; the load-failure sentinel verdict
makes `passed` false. -/
theorem claim_C7 (env : Env) (g : Gen) (spec : TestSpec)
    (hio : g.io = ExcOutcome.ok spec) :
    (∃ r, run_test env g.cand g.io = ExcOutcome.ok r ∧
      ((evaluate_single env g).passed = true ↔ ∀ v ∈ r.res, v = Verdict.b true)) ∧
    (g.cand.load = ExcOutcome.ok () → spec.inputs = [] →
      (evaluate_single env g).passed = true ∧
      (evaluate_single env g).num_tests = 0 ∧
      (evaluate_single env g).num_passed = 0) ∧
    (∀ e, g.cand.load = ExcOutcome.exc e → (evaluate_single env g).passed = false) := by
  refine ⟨?_, ?_, ?_⟩
  · cases hload : g.cand.load with
    | ok u =>
        cases u
        have hrun : run_test env g.cand g.io
            = ExcOutcome.ok (runCases env g.cand spec 0 spec.inputs env.stdout) := by
          rw [hio]
          exact run_test_eq_load_ok env g.cand spec hload
        refine ⟨_, hrun, ?_⟩
        rw [evaluate_single_eq_ok env g _ hrun]
        simp [List.all_eq_true]
    | exc e =>
        have hrun : run_test env g.cand g.io
            = ExcOutcome.ok ⟨[Verdict.sentinel], [some ⟨e.name, e.msg⟩], [], env.stdout⟩ := by
          rw [hio]
          exact run_test_eq_load_exc env g.cand spec e hload
        refine ⟨_, hrun, ?_⟩
        rw [evaluate_single_eq_ok env g _ hrun]
        simp
  · intro hload hempty
    have hrun : run_test env g.cand g.io
        = ExcOutcome.ok (runCases env g.cand spec 0 spec.inputs env.stdout) := by
      rw [hio]
      exact run_test_eq_load_ok env g.cand spec hload
    rw [evaluate_single_eq_ok env g _ hrun]
    rw [hempty] at hrun ⊢
    simp [runCases]
  · intro e hload
    have hrun : run_test env g.cand g.io
        = ExcOutcome.ok ⟨[Verdict.sentinel], [some ⟨e.name, e.msg⟩], [], env.stdout⟩ := by
      rw [hio]
      exact run_test_eq_load_exc env g.cand spec e hload
    rw [evaluate_single_eq_ok env g _ hrun]
    simp

theorem claim_C7_witness :
    ((evaluate_single wEnv gEmpty).passed = true ∧
      (evaluate_single wEnv gEmpty).num_tests = 0 ∧
      (evaluate_single wEnv gEmpty).num_passed = 0) ∧
    (evaluate_single wEnv gLoadFail).passed = false :=
  ⟨(claim_C7 wEnv gEmpty emptySpec rfl).2.1 rfl rfl,
   (claim_C7 wEnv gLoadFail addSpec rfl).2.2
     ⟨"SyntaxError", "invalid syntax", "Traceback: SyntaxError"⟩ rfl⟩

/-- C9: the process-level stdout stream diverted by
`_run_script_and_capture_output` is restored on every exit path — for
every candidate behaviour (returning or raising), the stream after the
call equals the stream in place before it, and consequently every
per-case iteration and every run of the per-case loop leaves `sys.stdout`
as it found it, so the next case starts with the original stream. -/
theorem claim_C9 (cand : Candidate) (k : Nat) (st : OutStream) (env : Env)
    (spec : TestSpec) (i j : Nat) (inp : PyVal) (ins : List PyVal) :
    (_run_script_and_capture_output cand k st).2 = st ∧
    (runCase env cand spec i inp st).stdout = st ∧
    (runCases env cand spec j ins st).stdout = st :=
  ⟨run_script_stdout cand k st, runCase_stdout env cand spec i inp st,
   runCases_stdout env cand spec ins j st⟩

def mismatchSpec : TestSpec := ⟨[PyVal.int 1, PyVal.int 2], [PyVal.int 1], some "f"⟩

/-- C10: a test spec with more inputs than outputs is not rejected at the
boundary: `validate_io` (which would detect the mismatch, and is not on
the evaluation path) reports the length mismatch, yet `run_test` still
returns one verdict per input, and a case beyond the end of the outputs
list whose candidate execution itself returns normally is recorded in
place as a false verdict with error kind `IndexError` from accessing the
missing expected output. -/
theorem claim_C10 (env : Env) (cand : Candidate) (spec : TestSpec)
    (i : Nat) (inp : PyVal)
    (hload : cand.load = ExcOutcome.ok ())
    (hlen : spec.outputs.length < spec.inputs.length)
    (hin : spec.inputs.get? i = some inp)
    (hi : spec.outputs.length ≤ i)
    (hok : spec.fn_name.elim (∃ out, cand.script i = ExcOutcome.ok out)
        (fun n => ∃ got, cand.callFn n i (spreadArgs inp) = ExcOutcome.ok got)) :
    validate_io (TestSpec.toIoData spec) = (false, "Input/output length mismatch") ∧
    ∃ r, run_test env cand (ExcOutcome.ok spec) = ExcOutcome.ok r ∧
      r.res.length = spec.inputs.length ∧
      r.res.get? i = some (Verdict.b false) ∧
      r.err.get? i = some (some ⟨"IndexError", index_error_tb⟩) := by
  constructor
  · have hne : spec.inputs.length ≠ spec.outputs.length := by omega
    simp [validate_io, TestSpec.toIoData, dict_lookup, hne]
  · have hout : spec.outputs.get? i = none := by
      rw [List.get?_eq_none]
      exact hi
    obtain ⟨h1, h2⟩ := runCases_get env cand spec spec.inputs 0 i env.stdout inp hin
    rw [Nat.zero_add] at h1 h2
    cases hfn : spec.fn_name with
    | some n =>
        rw [hfn] at hok
        simp only [Option.elim_some] at hok
        obtain ⟨got, hcall⟩ := hok
        rw [runCase_eq_fn_idx env cand spec i inp env.stdout n got hfn hcall hout]
          at h1 h2
        exact ⟨runCases env cand spec 0 spec.inputs env.stdout,
          run_test_eq_load_ok env cand spec hload,
          runCases_res_length env cand spec spec.inputs 0 env.stdout, h1, h2⟩
    | none =>
        rw [hfn] at hok
        simp only [Option.elim_none] at hok
        obtain ⟨out, hscript⟩ := hok
        rw [runCase_eq_script_idx env cand spec i inp env.stdout out hfn hscript hout]
          at h1 h2
        exact ⟨runCases env cand spec 0 spec.inputs env.stdout,
          run_test_eq_load_ok env cand spec hload,
          runCases_res_length env cand spec spec.inputs 0 env.stdout, h1, h2⟩

theorem claim_C10_witness :
    validate_io (TestSpec.toIoData mismatchSpec)
      = (false, "Input/output length mismatch") ∧
    ∃ r, run_test wEnv pureCand (ExcOutcome.ok mismatchSpec) = ExcOutcome.ok r ∧
      r.res.length = mismatchSpec.inputs.length ∧
      r.res.get? 1 = some (Verdict.b false) ∧
      r.err.get? 1 = some (some ⟨"IndexError", index_error_tb⟩) :=
  claim_C10 wEnv pureCand mismatchSpec 1 (PyVal.int 2) rfl (by decide) rfl
    (by decide) ⟨PyVal.list [PyVal.int 2], rfl⟩

theorem pureCand_names : pureCand.excNamesNonempty :=
  ⟨fun _ h => ExcOutcome.noConfusion h,
   fun _ _ _ _ h => ExcOutcome.noConfusion h,
   fun _ _ h => ExcOutcome.noConfusion h⟩

theorem loadFailCand_names : loadFailCand.excNamesNonempty := by
  refine ⟨?_, ?_, ?_⟩
  · intro e h
    simp only [loadFailCand] at h
    injection h with h2
    rw [← h2]
    decide
  · intro _ _ _ _ h
    exact ExcOutcome.noConfusion h
  · intro _ _ h
    exact ExcOutcome.noConfusion h

/-- C8: the error histogram assigns exactly one classification to each
failing candidate — the name of the first non-null error descriptor in
its error list (or `EvaluationError` when the harness itself failed to
run it) — and passing candidates contribute nothing, so for candidates
whose exceptions carry real (non-empty) type names the histogram's counts
sum to the number of candidates whose `passed` flag is false. -/
theorem claim_C8 (env : Env) (gens : List Gen)
    (hc : ∀ g ∈ gens, g.cand.excNamesNonempty) :
    (((error_histogram (evaluate_results env gens)).map Prod.snd).sum
        = ((evaluate_results env gens).filter fun r => !r.passed).length) ∧
    (∀ r ∈ evaluate_results env gens, r.passed = true → r.error_name = none) ∧
    (∀ r ∈ evaluate_results env gens, r.passed = false →
        r.error_name = first_error_name r.error) := by
  refine ⟨?_, ?_, ?_⟩
  · unfold error_histogram
    rw [foldl_hist_sum (evaluate_results env gens) [], countP_truthy env gens hc,
      List.countP_eq_length_filter]
    simp
  · intro r hr hpassed
    obtain ⟨g, _, hg⟩ := List.mem_map.mp hr
    subst hg
    cases hrun : run_test env g.cand g.io with
    | exc e =>
        rw [evaluate_single_eq_exc env g e hrun] at hpassed
        simp at hpassed
    | ok rl =>
        rw [evaluate_single_eq_ok env g rl hrun] at hpassed ⊢
        simp only [] at hpassed
        simp [hpassed]
  · intro r hr hfailed
    obtain ⟨g, _, hg⟩ := List.mem_map.mp hr
    subst hg
    cases hrun : run_test env g.cand g.io with
    | exc e =>
        rw [evaluate_single_eq_exc env g e hrun]
        rfl
    | ok rl =>
        rw [evaluate_single_eq_ok env g rl hrun] at hfailed ⊢
        simp only [] at hfailed
        simp [hfailed]

theorem claim_C8_witness :
    ((error_histogram (evaluate_results wEnv [gPure, gLoadFail])).map Prod.snd).sum
      = ((evaluate_results wEnv [gPure, gLoadFail]).filter fun r => !r.passed).length :=
  (claim_C8 wEnv [gPure, gLoadFail] (by
    intro g hg
    simp only [List.mem_cons, List.not_mem_nil, or_false] at hg
    cases hg with
    | inl h => rw [h]; exact pureCand_names
    | inr h => rw [h]; exact loadFailCand_names)).1
